import Mathlib

/-!
Shallow embedding of `game_session.py` (class `GameSession`) from the
poker-winner-bot repository, together with proofs settling the spec claims.

Modelling choices:
* Python dicts are association lists `List (String × α)` in insertion order;
  `dinsert` mirrors `d[k] = v` (update in place, else append), `derase`
  mirrors `d.pop(k)` for the unique-key dicts the class maintains.
* Currency amounts (`buy_in`, stacks, winnings) are `Int`.  The callers pass
  integer-valued numbers and every ledger operation is `+`, `-`, `*`, which
  are exact on such values, so `Int` is a faithful model of the arithmetic.
* Game indices are `Nat`; quantities that Python computes with possibly
  negative ints (games played, P/L) are computed in `Int`.
* Python iterates `set(...)` in unspecified order; the model iterates in
  first-occurrence order (`List.dedup` keeps the first occurrence).  No claim
  below depends on that order.
-/

set_option autoImplicit false
set_option linter.unusedVariables false

namespace PokerBot

/-- One entry of `GameSession.events`: the tuple
`(date, event_type, player, action, current_stack)` built by `add_event`. -/
structure EventRec where
  date : String
  etype : String
  player : String
  action : String
  stack : Int
  deriving DecidableEq

/-- Python `d.get(k)` / `d[k]` on a dict modelled as an association list:
the value at the first occurrence of key `k`. -/
def dlookup {α : Type} : List (String × α) → String → Option α
  | [], _ => none
  | (k', v) :: rest, k => if k' = k then some v else dlookup rest k

/-- Python `d[k] = v`: replace the value at an existing key in place,
otherwise append the new binding at the end. -/
def dinsert {α : Type} : List (String × α) → String → α → List (String × α)
  | [], k, v => [(k, v)]
  | (k', v') :: rest, k, v =>
      if k' = k then (k, v) :: rest else (k', v') :: dinsert rest k v

/-- Python `d.pop(k)`: drop the first binding of key `k` (dict keys are
unique, so this is the whole binding). -/
def derase {α : Type} : List (String × α) → String → List (String × α)
  | [], _ => []
  | (k', v') :: rest, k => if k' = k then rest else (k', v') :: derase rest k

/-- The key list of a dict, in insertion order (`d.keys()`). -/
def dkeys {α : Type} (d : List (String × α)) : List String :=
  d.map Prod.fst

/-- The state held by `GameSession.__init__` (src/game_session.py). -/
structure GameSession where
  date : String
  buy_in : Int
  active_players : List (String × Int)
  initial_players : List String
  events : List EventRec
  winner : Option String
  is_active : Bool
  game_count : Nat
  total_winnings : List (String × Int)
  player_join_game : List (String × Nat)
  player_leave_game : List (String × Option Nat)
  win_counts : List (String × Nat)
  deriving DecidableEq

/-- One iteration of the per-player loop in `GameSession.__init__`:
initialize the tracking dicts and record the initial JOIN event. -/
def createStep (buyIn : Int) (date : String) (s : GameSession) (p : String) : GameSession :=
  { s with
    total_winnings := dinsert s.total_winnings p 0
    player_join_game := dinsert s.player_join_game p 1
    player_leave_game := dinsert s.player_leave_game p none
    win_counts := dinsert s.win_counts p 0
    events := s.events ++ [⟨date, "JOIN", p, "Initial", buyIn⟩] }

/-- `GameSession.__init__(buy_in, players, date)`.  The dict comprehension
`{player: buy_in for player in players}` is the fold of `dinsert`, and the
tracking loop is the fold of `createStep`. -/
def create (buyIn : Int) (players : List String) (date : String) : GameSession :=
  players.foldl (createStep buyIn date)
    { date := date
      buy_in := buyIn
      active_players := players.foldl (fun d p => dinsert d p buyIn) []
      initial_players := players
      events := []
      winner := none
      is_active := true
      game_count := 1
      total_winnings := []
      player_join_game := []
      player_leave_game := []
      win_counts := [] }

/-- `GameSession.add_player` (lines 32-45). -/
def add_player (s : GameSession) (player : String) : GameSession × Bool × String :=
  if (dlookup s.active_players player).isSome then
    (s, false, "❌ " ++ player ++ " is already in the game")
  else
    let s' : GameSession :=
      { s with
        active_players := dinsert s.active_players player s.buy_in
        total_winnings := dinsert s.total_winnings player ((dlookup s.total_winnings player).getD 0)
        player_join_game := dinsert s.player_join_game player s.game_count
        player_leave_game := dinsert s.player_leave_game player none
        win_counts := dinsert s.win_counts player ((dlookup s.win_counts player).getD 0)
        events := s.events ++ [⟨s.date, "IN", player, "Joined", s.buy_in⟩] }
    let total_prize : Int := (s'.active_players.length : Int) * s.buy_in
    (s', true,
      "✅ " ++ player ++ " joined the game with $" ++ toString s.buy_in ++
        "\n💰 Current prize pool: $" ++ toString total_prize)

/-- `GameSession.remove_player` (lines 47-57). -/
def remove_player (s : GameSession) (player : String) : GameSession × Bool × String :=
  match dlookup s.active_players player with
  | none => (s, false, "❌ " ++ player ++ " is not in the game")
  | some stack =>
    let s' : GameSession :=
      { s with
        active_players := derase s.active_players player
        player_leave_game := dinsert s.player_leave_game player (some s.game_count)
        events := s.events ++ [⟨s.date, "OUT", player, "Left", stack⟩] }
    let total_prize : Int := (s'.active_players.length : Int) * s.buy_in
    (s', true,
      "👋 " ++ player ++ " left the game with $" ++ toString stack ++
        "\n💰 New prize pool: $" ++ toString total_prize)

/-- `GameSession.set_winner` (lines 59-92).  The `for player in
self.active_players` reset loop writes `buy_in` at every existing key and
appends one NEWGAME event per key, in key order. -/
def set_winner (s : GameSession) (winner : String) : GameSession × Bool × String :=
  if (dlookup s.active_players winner).isNone then
    (s, false, "❌ " ++ winner ++ " is not in the game")
  else
    let total_pool : Int := (s.active_players.length : Int) * s.buy_in
    let s1 : GameSession :=
      { s with
        total_winnings :=
          dinsert s.total_winnings winner ((dlookup s.total_winnings winner).getD 0 + total_pool)
        win_counts :=
          dinsert s.win_counts winner ((dlookup s.win_counts winner).getD 0 + 1)
        events := s.events ++
          [⟨s.date, "WIN", winner, "Won Game #" ++ toString s.game_count, total_pool⟩] }
    let s2 : GameSession :=
      { s1 with
        game_count := s.game_count + 1
        active_players := s1.active_players.map (fun kv => (kv.1, s.buy_in))
        events := s1.events ++ s1.active_players.map (fun kv =>
          (⟨s.date, "NEWGAME", kv.1, "Game #" ++ toString (s.game_count + 1), s.buy_in⟩ : EventRec)) }
    let message := String.intercalate "\n"
      ["🏆 " ++ winner ++ " won Game #" ++ toString s.game_count ++ "!",
       "💰 Prize pool: $" ++ toString total_pool,
       "👑 Wins: " ++ toString ((dlookup s1.win_counts winner).getD 0),
       "\n🎲 Game #" ++ toString (s.game_count + 1) ++ " has started automatically!",
       "💵 All players reset to $" ++ toString s.buy_in,
       "👥 Active players: " ++ String.intercalate ", " (dkeys s2.active_players)]
    (s2, true, message)

/-- `GameSession.get_player_games_played` (lines 94-102); Python int
arithmetic, so the result lives in `Int`. -/
def get_player_games_played (s : GameSession) (player : String) : Int :=
  let join_game : Nat := (dlookup s.player_join_game player).getD s.game_count
  let leave_game : Option Nat := (dlookup s.player_leave_game player).getD none
  match leave_game with
  | none => (s.game_count : Int) - (join_game : Int)
  | some lg => (lg : Int) - (join_game : Int)

/-- Python `"─" * n`. -/
def dashes (n : Nat) : String :=
  String.mk (List.replicate n '─')

/-- The truthiness filter `if player and p != player: continue` of
`get_player_pnl`: keep `p` unless a non-empty name was given and differs. -/
def keepPlayer (given : Option String) (p : String) : Bool :=
  match given with
  | none => true
  | some nm => nm == "" || p == nm

/-- The block of result lines `get_player_pnl` emits for one player. -/
def pnlLines (s : GameSession) (p : String) : List String :=
  let games_played := get_player_games_played s p
  let total_buyin := s.buy_in * games_played
  let winnings := (dlookup s.total_winnings p).getD 0
  let pnl := winnings - total_buyin
  let wins := (dlookup s.win_counts p).getD 0
  let status := if (dlookup s.active_players p).isSome then "🟢" else "⭕"
  [status ++ " " ++ p ++ ":",
   "  Games Played: " ++ toString games_played,
   "  Games Won: " ++ toString wins,
   "  Total Buy-in: $" ++ toString total_buyin,
   "  Total Won: $" ++ toString winnings,
   "  Net P/L: " ++
     (if pnl > 0 then "+$" ++ toString pnl
      else if pnl < 0 then "-$" ++ toString pnl.natAbs
      else "$0"),
   dashes 20]

/-- `GameSession.get_player_pnl` (lines 104-143).  `all_players =
set(self.player_join_game.keys())` is modelled as the deduplicated key list
in first-occurrence order. -/
def get_player_pnl (s : GameSession) (player : Option String) : Bool × String :=
  let header := ["📊 **Profit/Loss Summary**",
                 "Games played: " ++ toString ((s.game_count : Int) - 1),
                 dashes 30]
  let allPlayers := (dkeys s.player_join_game).dedup
  let results := (allPlayers.filter (keepPlayer player)).flatMap (pnlLines s)
  if results.isEmpty then
    (false, "❌ Player " ++ (match player with | none => "None" | some nm => nm) ++ " not found")
  else
    (true, String.intercalate "\n" (header ++ results))

/-- One row of `GameSession.get_final_results`. -/
structure FinalResult where
  player_name : String
  buy_in : Int
  rebuys : Int
  final_stack : Int
  net_profit_loss : Int
  deriving DecidableEq

/-- `GameSession.get_final_results` (lines 145-158).  `set(initial) |
set(active keys)` is modelled as the deduplicated concatenation in
first-occurrence order. -/
def get_final_results (s : GameSession) : List FinalResult :=
  ((s.initial_players ++ dkeys s.active_players).dedup).map (fun p =>
    { player_name := p
      buy_in := s.buy_in
      rebuys := 0
      final_stack := (dlookup s.active_players p).getD 0
      net_profit_loss := (dlookup s.active_players p).getD 0 - s.buy_in })

/-- The ledger commands a caller can issue after creation, for stating
invariant preservation; `pnl` is the read-only query, which touches no
state. -/
inductive Op where
  | add (player : String)
  | remove (player : String)
  | win (player : String)
  | pnl (player : Option String)
  deriving DecidableEq

/-- The state reached by one command (queries leave the state as is). -/
def runOp (s : GameSession) : Op → GameSession
  | .add p => (add_player s p).1
  | .remove p => (remove_player s p).1
  | .win p => (set_winner s p).1
  | .pnl _ => s

/-- The data-model invariants of §3 of the spec: `active_players` is a
proper mapping (unique keys), every active key has a `player_join_game`
entry, and `player_leave_game` holds `None` for every active player. -/
def SessionInv (s : GameSession) : Prop :=
  (dkeys s.active_players).Nodup ∧
  (∀ p ∈ dkeys s.active_players, (dlookup s.player_join_game p).isSome = true) ∧
  (∀ p ∈ dkeys s.active_players, dlookup s.player_leave_game p = some none)

/-- Every recorded stack in `active_players` is exactly the buy-in. -/
def StackInv (s : GameSession) : Prop :=
  ∀ kv ∈ s.active_players, kv.2 = s.buy_in

/-- The spec scenario session: `buy_in=500`, `players=[A,B,C]`. -/
def sessA : GameSession := create 500 ["A", "B", "C"] "2024-01-01"

/-- The scenario's first step: `set_winner("A")`. -/
def winA : GameSession × Bool × String := set_winner sessA "A"

/-- The scenario's second step: `remove_player("B")`. -/
def remB : GameSession × Bool × String := remove_player winA.1 "B"

/-- The scenario's query: `get_player_pnl("A")`. -/
def pnlA : Bool × String := get_player_pnl remB.1 (some "A")

/-- A session in which "B" joined and was then removed, for exercising
`get_player_pnl` on an inactive (but previously joined) name. -/
def sessRem : GameSession := (remove_player (create 500 ["A", "B"] "2024-02-02") "B").1

/-! ### Dictionary lemmas -/

theorem dlookup_dinsert {α : Type} (d : List (String × α)) (k q : String) (v : α) :
    dlookup (dinsert d k v) q = if k = q then some v else dlookup d q := by
  induction d with
  | nil => simp [dinsert, dlookup]
  | cons kv rest ih =>
    obtain ⟨k', v'⟩ := kv
    by_cases h : k' = k
    · subst h
      simp only [dinsert, if_pos rfl, dlookup]
      by_cases hq : k' = q <;> simp [hq]
    · simp only [dinsert, if_neg h, dlookup, ih]
      by_cases hq : k' = q
      · subst hq
        have hk : ¬ (k = k') := fun hh => h hh.symm
        simp [hk]
      · simp [hq]

theorem mem_dkeys {α : Type} (d : List (String × α)) (k : String) :
    k ∈ dkeys d ↔ (dlookup d k).isSome := by
  induction d with
  | nil => simp [dkeys, dlookup]
  | cons kv rest ih =>
    obtain ⟨k', v'⟩ := kv
    by_cases h : k' = k
    · subst h
      simp [dkeys, dlookup]
    · have h2 : ¬ (k = k') := fun hh => h hh.symm
      rw [show dkeys ((k', v') :: rest) = k' :: dkeys rest from rfl]
      simp only [List.mem_cons, h2, false_or, dlookup, if_neg h]
      exact ih

theorem mem_dkeys_dinsert {α : Type} (d : List (String × α)) (k : String) (v : α) (q : String) :
    q ∈ dkeys (dinsert d k v) ↔ q ∈ dkeys d ∨ q = k := by
  by_cases h : k = q
  · subst h
    simp [mem_dkeys, dlookup_dinsert]
  · have h2 : ¬ (q = k) := fun hh => h hh.symm
    simp [mem_dkeys, dlookup_dinsert, h, h2]

theorem dlookup_derase_ne {α : Type} (d : List (String × α)) (k q : String) (h : k ≠ q) :
    dlookup (derase d k) q = dlookup d q := by
  induction d with
  | nil => simp [derase]
  | cons kv rest ih =>
    obtain ⟨k', v'⟩ := kv
    by_cases hk : k' = k
    · subst hk
      simp [derase, dlookup, fun hq : k' = q => h hq]
    · simp [derase, hk, dlookup, ih]

theorem derase_sublist {α : Type} (d : List (String × α)) (k : String) :
    (derase d k).Sublist d := by
  induction d with
  | nil => simp [derase]
  | cons kv rest ih =>
    obtain ⟨k', v'⟩ := kv
    by_cases hk : k' = k
    · rw [show derase ((k', v') :: rest) k = rest from by simp [derase, hk]]
      exact List.sublist_cons_self (k', v') rest
    · simpa [derase, hk] using ih.cons₂ (k', v')

theorem mem_dkeys_of_mem_derase {α : Type} {d : List (String × α)} {k q : String}
    (h : q ∈ dkeys (derase d k)) : q ∈ dkeys d :=
  (((derase_sublist d k).map Prod.fst).mem h)

theorem nodup_dkeys_dinsert {α : Type} {d : List (String × α)} (k : String) (v : α)
    (h : (dkeys d).Nodup) : (dkeys (dinsert d k v)).Nodup := by
  induction d with
  | nil => simp [dinsert, dkeys]
  | cons kv rest ih =>
    obtain ⟨k', v'⟩ := kv
    by_cases hk : k' = k
    · simpa [dinsert, hk, dkeys] using h
    · simp only [dkeys, List.map_cons, List.nodup_cons] at h
      have := ih h.2
      simp only [dinsert, if_neg hk, dkeys, List.map_cons, List.nodup_cons]
      refine ⟨?_, this⟩
      intro hmem
      rcases (mem_dkeys_dinsert rest k v k').1 hmem with hm | hm
      · exact h.1 hm
      · exact hk hm

theorem dlookup_derase_self {α : Type} {d : List (String × α)} (k : String)
    (h : (dkeys d).Nodup) : dlookup (derase d k) k = none := by
  induction d with
  | nil => simp [derase, dlookup]
  | cons kv rest ih =>
    obtain ⟨k', v'⟩ := kv
    simp only [dkeys, List.map_cons, List.nodup_cons] at h
    by_cases hk : k' = k
    · subst hk
      simp only [derase, if_pos rfl]
      rcases ho : dlookup rest k' with _ | w
      · exact ho
      · exact absurd ((mem_dkeys rest k').2 (by simp [ho])) h.1
    · simp [derase, hk, dlookup, ih h.2]

theorem nodup_dkeys_derase {α : Type} {d : List (String × α)} (k : String)
    (h : (dkeys d).Nodup) : (dkeys (derase d k)).Nodup :=
  h.sublist ((derase_sublist d k).map Prod.fst)

theorem dlookup_map_const {α β : Type} (d : List (String × α)) (c : β) (q : String) :
    dlookup (d.map (fun kv => (kv.1, c))) q = (dlookup d q).map (fun _ => c) := by
  induction d with
  | nil => simp [dlookup]
  | cons kv rest ih =>
    obtain ⟨k', v'⟩ := kv
    by_cases h : k' = q <;> simp [dlookup, h, ih]

theorem dkeys_map_const {α β : Type} (d : List (String × α)) (c : β) :
    dkeys (d.map (fun kv => (kv.1, c))) = dkeys d := by
  simp [dkeys]

theorem dlookup_foldl_dinsert {α : Type} (v : α) (ps : List String)
    (acc : List (String × α)) (q : String) :
    dlookup (ps.foldl (fun d p => dinsert d p v) acc) q =
      if q ∈ ps then some v else dlookup acc q := by
  induction ps generalizing acc with
  | nil => simp
  | cons p ps ih =>
    simp only [List.foldl_cons, ih, dlookup_dinsert, List.mem_cons]
    by_cases hq : q ∈ ps
    · simp [hq]
    · by_cases hp : q = p
      · simp [hp, hq]
      · have hp2 : ¬ (p = q) := fun hh => hp hh.symm
        simp [hp, hq, hp2]

theorem nodup_dkeys_foldl_dinsert {α : Type} (v : α) (ps : List String)
    {acc : List (String × α)} (h : (dkeys acc).Nodup) :
    (dkeys (ps.foldl (fun d p => dinsert d p v) acc)).Nodup := by
  induction ps generalizing acc with
  | nil => simpa
  | cons p ps ih => exact ih (nodup_dkeys_dinsert p v h)

theorem mem_of_mem_dinsert {α : Type} {d : List (String × α)} {k : String} {v : α}
    {kv : String × α} (h : kv ∈ dinsert d k v) : kv ∈ d ∨ kv = (k, v) := by
  induction d with
  | nil => simpa [dinsert] using h
  | cons hd rest ih =>
    obtain ⟨k', v'⟩ := hd
    by_cases hk : k' = k
    · rcases (by simpa [dinsert, hk] using h : kv = (k, v) ∨ kv ∈ rest) with h1 | h1
      · exact Or.inr h1
      · exact Or.inl (List.mem_cons_of_mem _ h1)
    · rcases (by simpa [dinsert, hk] using h : kv = (k', v') ∨ kv ∈ dinsert rest k v) with h1 | h1
      · exact Or.inl (by simp [h1])
      · rcases ih h1 with h2 | h2
        · exact Or.inl (List.mem_cons_of_mem _ h2)
        · exact Or.inr h2

theorem mem_of_mem_foldl_dinsert {α : Type} {v : α} (ps : List String)
    {acc : List (String × α)} {kv : String × α}
    (h : kv ∈ ps.foldl (fun d p => dinsert d p v) acc) : kv ∈ acc ∨ kv.2 = v := by
  induction ps generalizing acc with
  | nil => exact Or.inl (by simpa using h)
  | cons p ps ih =>
    rcases ih (by simpa using h) with h1 | h1
    · rcases mem_of_mem_dinsert h1 with h2 | h2
      · exact Or.inl h2
      · exact Or.inr (by simp [h2])
    · exact Or.inr h1

/-! ### Characterization of `create` -/

theorem foldl_createStep_game_count (b : Int) (dt : String) (ps : List String)
    (base : GameSession) : (ps.foldl (createStep b dt) base).game_count = base.game_count := by
  induction ps generalizing base with
  | nil => rfl
  | cons p ps ih => simp [List.foldl_cons, ih, createStep]

theorem foldl_createStep_buy_in (b : Int) (dt : String) (ps : List String)
    (base : GameSession) : (ps.foldl (createStep b dt) base).buy_in = base.buy_in := by
  induction ps generalizing base with
  | nil => rfl
  | cons p ps ih => simp [List.foldl_cons, ih, createStep]

theorem foldl_createStep_active (b : Int) (dt : String) (ps : List String)
    (base : GameSession) :
    (ps.foldl (createStep b dt) base).active_players = base.active_players := by
  induction ps generalizing base with
  | nil => rfl
  | cons p ps ih => simp [List.foldl_cons, ih, createStep]

theorem foldl_createStep_initial (b : Int) (dt : String) (ps : List String)
    (base : GameSession) :
    (ps.foldl (createStep b dt) base).initial_players = base.initial_players := by
  induction ps generalizing base with
  | nil => rfl
  | cons p ps ih => simp [List.foldl_cons, ih, createStep]

theorem foldl_createStep_winnings (b : Int) (dt : String) (ps : List String)
    (base : GameSession) :
    (ps.foldl (createStep b dt) base).total_winnings =
      ps.foldl (fun m p => dinsert m p 0) base.total_winnings := by
  induction ps generalizing base with
  | nil => rfl
  | cons p ps ih => simp [List.foldl_cons, ih, createStep]

theorem foldl_createStep_join (b : Int) (dt : String) (ps : List String)
    (base : GameSession) :
    (ps.foldl (createStep b dt) base).player_join_game =
      ps.foldl (fun m p => dinsert m p 1) base.player_join_game := by
  induction ps generalizing base with
  | nil => rfl
  | cons p ps ih => simp [List.foldl_cons, ih, createStep]

theorem foldl_createStep_leave (b : Int) (dt : String) (ps : List String)
    (base : GameSession) :
    (ps.foldl (createStep b dt) base).player_leave_game =
      ps.foldl (fun m p => dinsert m p none) base.player_leave_game := by
  induction ps generalizing base with
  | nil => rfl
  | cons p ps ih => simp [List.foldl_cons, ih, createStep]

theorem foldl_createStep_wins (b : Int) (dt : String) (ps : List String)
    (base : GameSession) :
    (ps.foldl (createStep b dt) base).win_counts =
      ps.foldl (fun m p => dinsert m p 0) base.win_counts := by
  induction ps generalizing base with
  | nil => rfl
  | cons p ps ih => simp [List.foldl_cons, ih, createStep]

theorem foldl_createStep_events (b : Int) (dt : String) (ps : List String)
    (base : GameSession) :
    (ps.foldl (createStep b dt) base).events =
      base.events ++ ps.map (fun p => (⟨dt, "JOIN", p, "Initial", b⟩ : EventRec)) := by
  induction ps generalizing base with
  | nil => simp
  | cons p ps ih => simp [List.foldl_cons, ih, createStep]

theorem create_game_count (b : Int) (ps : List String) (dt : String) :
    (create b ps dt).game_count = 1 := by
  simp [create, foldl_createStep_game_count]

theorem create_buy_in (b : Int) (ps : List String) (dt : String) :
    (create b ps dt).buy_in = b := by
  simp [create, foldl_createStep_buy_in]

theorem create_active (b : Int) (ps : List String) (dt : String) :
    (create b ps dt).active_players = ps.foldl (fun d p => dinsert d p b) [] := by
  simp [create, foldl_createStep_active]

theorem create_initial (b : Int) (ps : List String) (dt : String) :
    (create b ps dt).initial_players = ps := by
  simp [create, foldl_createStep_initial]

theorem create_events (b : Int) (ps : List String) (dt : String) :
    (create b ps dt).events = ps.map (fun p => (⟨dt, "JOIN", p, "Initial", b⟩ : EventRec)) := by
  simp [create, foldl_createStep_events]

theorem dlookup_create_active (b : Int) (ps : List String) (dt : String) (q : String) :
    dlookup (create b ps dt).active_players q = if q ∈ ps then some b else none := by
  rw [create_active]
  simp [dlookup_foldl_dinsert, dlookup]

theorem dlookup_create_winnings (b : Int) (ps : List String) (dt : String) (q : String) :
    dlookup (create b ps dt).total_winnings q = if q ∈ ps then some 0 else none := by
  rw [show (create b ps dt).total_winnings = ps.foldl (fun m p => dinsert m p 0) [] from by
    simp [create, foldl_createStep_winnings]]
  simp [dlookup_foldl_dinsert, dlookup]

theorem dlookup_create_join (b : Int) (ps : List String) (dt : String) (q : String) :
    dlookup (create b ps dt).player_join_game q = if q ∈ ps then some 1 else none := by
  rw [show (create b ps dt).player_join_game = ps.foldl (fun m p => dinsert m p 1) [] from by
    simp [create, foldl_createStep_join]]
  simp [dlookup_foldl_dinsert, dlookup]

theorem dlookup_create_leave (b : Int) (ps : List String) (dt : String) (q : String) :
    dlookup (create b ps dt).player_leave_game q = if q ∈ ps then some none else none := by
  rw [show (create b ps dt).player_leave_game = ps.foldl (fun m p => dinsert m p none) [] from by
    simp [create, foldl_createStep_leave]]
  simp [dlookup_foldl_dinsert, dlookup]

theorem dlookup_create_wins (b : Int) (ps : List String) (dt : String) (q : String) :
    dlookup (create b ps dt).win_counts q = if q ∈ ps then some 0 else none := by
  rw [show (create b ps dt).win_counts = ps.foldl (fun m p => dinsert m p 0) [] from by
    simp [create, foldl_createStep_wins]]
  simp [dlookup_foldl_dinsert, dlookup]

/-- C5: `create` with a positive buy-in and a non-empty list of distinct
names yields `game_count = 1`, stack `buy_in`, winnings `0`, win count `0`
and join bookmark `1` for every listed player, and exactly one JOIN event
per player, with action label "Initial" and stack `buy_in`. -/
theorem create_initializes_session (b : Int) (ps : List String) (dt : String)
    (hb : 0 < b) (hne : ps ≠ []) (hnd : ps.Nodup) :
    (create b ps dt).game_count = 1 ∧
    (∀ p ∈ ps, dlookup (create b ps dt).active_players p = some b ∧
      dlookup (create b ps dt).total_winnings p = some 0 ∧
      dlookup (create b ps dt).win_counts p = some 0 ∧
      dlookup (create b ps dt).player_join_game p = some 1) ∧
    (create b ps dt).events = ps.map (fun p => (⟨dt, "JOIN", p, "Initial", b⟩ : EventRec)) ∧
    (∀ p ∈ ps, ((create b ps dt).events.filter
      (fun e => e.etype == "JOIN" && e.player == p)).length = 1) := by
  refine ⟨create_game_count b ps dt, ?_, create_events b ps dt, ?_⟩
  · intro p hp
    simp [dlookup_create_active, dlookup_create_winnings, dlookup_create_wins,
      dlookup_create_join, hp]
  · intro p hp
    rw [create_events, List.filter_map]
    have hf : (fun e : EventRec => e.etype == "JOIN" && e.player == p) ∘
        (fun q => (⟨dt, "JOIN", q, "Initial", b⟩ : EventRec)) = (fun q => q == p) := by
      funext q
      simp
    rw [hf, List.length_map, ← List.countP_eq_length_filter]
    exact List.count_eq_one_of_mem hnd hp

/-- Witness for C5 at a concrete buy-in and roster. -/
theorem create_initializes_session_witness :
    (create 500 ["A", "B"] "2024-11-11").game_count = 1 :=
  (create_initializes_session 500 ["A", "B"] "2024-11-11"
    (by decide) (by decide) (by decide)).1

/-! ### `set_winner` -/

/-- C1: for any session and any active `w`, `set_winner w` succeeds; the
pool is `buy_in` times the number of active players at call time;
`total_winnings[w]` grows by exactly that pool and `win_counts[w]` by
exactly 1; exactly one WIN event is appended, its action label naming the
just-finished game index and its stack the pool; `game_count` grows by
exactly 1; afterwards every active player's stack is `buy_in`, with one
NEWGAME event per active player carrying the new game index and the reset
stack. -/
theorem set_winner_spec (s : GameSession) (w : String)
    (h : (dlookup s.active_players w).isSome = true) :
    (set_winner s w).2.1 = true ∧
    (dlookup (set_winner s w).1.total_winnings w).getD 0 =
      (dlookup s.total_winnings w).getD 0 + (s.active_players.length : Int) * s.buy_in ∧
    (dlookup (set_winner s w).1.win_counts w).getD 0 =
      (dlookup s.win_counts w).getD 0 + 1 ∧
    (set_winner s w).1.game_count = s.game_count + 1 ∧
    (set_winner s w).1.events = s.events ++
      (⟨s.date, "WIN", w, "Won Game #" ++ toString s.game_count,
        (s.active_players.length : Int) * s.buy_in⟩ : EventRec) ::
      s.active_players.map (fun kv =>
        (⟨s.date, "NEWGAME", kv.1, "Game #" ++ toString (s.game_count + 1), s.buy_in⟩ : EventRec)) ∧
    (((set_winner s w).1.events.drop s.events.length).filter
      (fun e => e.etype == "WIN")).length = 1 ∧
    dkeys (set_winner s w).1.active_players = dkeys s.active_players ∧
    (∀ p ∈ dkeys (set_winner s w).1.active_players,
      dlookup (set_winner s w).1.active_players p = some s.buy_in) := by
  obtain ⟨v, hv⟩ := Option.isSome_iff_exists.1 h
  have hev : (set_winner s w).1.events = s.events ++
      (⟨s.date, "WIN", w, "Won Game #" ++ toString s.game_count,
        (s.active_players.length : Int) * s.buy_in⟩ : EventRec) ::
      s.active_players.map (fun kv =>
        (⟨s.date, "NEWGAME", kv.1, "Game #" ++ toString (s.game_count + 1), s.buy_in⟩ : EventRec)) := by
    simp [set_winner, hv]
  refine ⟨by simp [set_winner, hv], ?_, ?_, by simp [set_winner, hv], hev, ?_, ?_, ?_⟩
  · simp [set_winner, hv, dlookup_dinsert]
  · simp [set_winner, hv, dlookup_dinsert]
  · rw [hev, List.drop_left]
    have hmap : ((s.active_players.map (fun kv =>
        (⟨s.date, "NEWGAME", kv.1, "Game #" ++ toString (s.game_count + 1), s.buy_in⟩
          : EventRec))).filter (fun e => e.etype == "WIN")) = [] := by
      refine List.filter_eq_nil_iff.2 ?_
      intro e he
      obtain ⟨kv, hkv, rfl⟩ := List.mem_map.1 he
      show ¬ (("NEWGAME" : String) == "WIN") = true
      decide
    simp [List.filter_cons, hmap]
  · simp [set_winner, hv, dkeys_map_const]
  · intro p hp
    have hp' : p ∈ dkeys s.active_players := by
      rw [show dkeys (set_winner s w).1.active_players = dkeys s.active_players from by
        simp [set_winner, hv, dkeys_map_const]] at hp
      exact hp
    obtain ⟨u, hu⟩ := Option.isSome_iff_exists.1 ((mem_dkeys _ _).1 hp')
    simp [set_winner, hv, dlookup_map_const, hu]

/-- Witness for C1 at the scenario session with winner "A". -/
theorem set_winner_spec_witness :
    (set_winner (create 500 ["A", "B", "C"] "2024-01-01") "A").2.1 = true :=
  (set_winner_spec (create 500 ["A", "B", "C"] "2024-01-01") "A" (by decide)).1

/-! ### The concrete spec scenario -/

/-- C2: on `create 500 [A,B,C]`: `set_winner A` awards pool 1500, leaves A's
winnings at 1500, game_count at 2 and all three stacks at 500;
`remove_player B` succeeds with a message reporting B's stack 500 and new
pool 1000; `get_player_pnl A` succeeds reporting 1 game played, total
buy-in 500 and net P/L +1000. -/
theorem scenario_buyin500 :
    winA.2.1 = true ∧
    (sessA.active_players.length : Int) * sessA.buy_in = 1500 ∧
    dlookup winA.1.total_winnings "A" = some 1500 ∧
    winA.1.game_count = 2 ∧
    winA.1.active_players = [("A", 500), ("B", 500), ("C", 500)] ∧
    remB.2.1 = true ∧
    remB.2.2 = "👋 B left the game with $500\n💰 New prize pool: $1000" ∧
    pnlA.1 = true ∧
    get_player_games_played remB.1 "A" = 1 ∧
    remB.1.buy_in * get_player_games_played remB.1 "A" = 500 ∧
    (dlookup remB.1.total_winnings "A").getD 0 -
      remB.1.buy_in * get_player_games_played remB.1 "A" = 1000 ∧
    pnlA.2 = "📊 **Profit/Loss Summary**\nGames played: 1\n" ++ dashes 30 ++
      "\n🟢 A:\n  Games Played: 1\n  Games Won: 1\n  Total Buy-in: $500" ++
      "\n  Total Won: $1500\n  Net P/L: +$1000\n" ++ dashes 20 := by
  set_option maxRecDepth 100000 in decide

/-! ### Failure leaves state unchanged -/

/-- C4: whenever `add_player`, `remove_player` or `set_winner` reports
failure, the session it returns is exactly the input session — no field
changes and no partially applied mutation.  (`get_player_pnl` returns only
a flag and a message, so it can touch no state; and all four operations
are total functions, so none can raise.) -/
theorem failed_ops_leave_state_unchanged (s : GameSession) (p : String) :
    ((add_player s p).2.1 = false → (add_player s p).1 = s) ∧
    ((remove_player s p).2.1 = false → (remove_player s p).1 = s) ∧
    ((set_winner s p).2.1 = false → (set_winner s p).1 = s) := by
  refine ⟨?_, ?_, ?_⟩
  · intro hf
    cases hx : dlookup s.active_players p with
    | none => simp [add_player, hx] at hf
    | some v => simp [add_player, hx]
  · intro hf
    cases hx : dlookup s.active_players p with
    | none => simp [remove_player, hx]
    | some v => simp [remove_player, hx] at hf
  · intro hf
    cases hx : dlookup s.active_players p with
    | none => simp [set_winner, hx]
    | some v => simp [set_winner, hx] at hf

/-- Witness for C4: removing an unknown player fails and returns the very
same session. -/
theorem failed_ops_leave_state_unchanged_witness :
    (remove_player (create 500 ["A"] "2024-04-04") "B").1 = create 500 ["A"] "2024-04-04" :=
  (failed_ops_leave_state_unchanged (create 500 ["A"] "2024-04-04") "B").2.1 (by decide)

/-! ### Remove followed by re-add -/

/-- C7: removing an active player and re-adding them is not a no-op: the
removal stamps `player_leave_game` with the game index at removal time,
the re-add clears that bookmark and moves `player_join_game` to the current
game index, the player's `total_winnings` and `win_counts` keep their
pre-removal values throughout, and an OUT plus an IN event are appended. -/
theorem remove_then_add_round_trip (s : GameSession) (w : String) (st : Int)
    (hnd : (dkeys s.active_players).Nodup)
    (h : dlookup s.active_players w = some st) :
    (remove_player s w).2.1 = true ∧
    dlookup (remove_player s w).1.player_leave_game w = some (some s.game_count) ∧
    (add_player (remove_player s w).1 w).2.1 = true ∧
    dlookup (add_player (remove_player s w).1 w).1.player_leave_game w = some none ∧
    dlookup (add_player (remove_player s w).1 w).1.player_join_game w = some s.game_count ∧
    (dlookup (remove_player s w).1.total_winnings w).getD 0 =
      (dlookup s.total_winnings w).getD 0 ∧
    (dlookup (add_player (remove_player s w).1 w).1.total_winnings w).getD 0 =
      (dlookup s.total_winnings w).getD 0 ∧
    (dlookup (remove_player s w).1.win_counts w).getD 0 = (dlookup s.win_counts w).getD 0 ∧
    (dlookup (add_player (remove_player s w).1 w).1.win_counts w).getD 0 =
      (dlookup s.win_counts w).getD 0 ∧
    (add_player (remove_player s w).1 w).1.events = s.events ++
      [⟨s.date, "OUT", w, "Left", st⟩, ⟨s.date, "IN", w, "Joined", s.buy_in⟩] := by
  have hno : dlookup (derase s.active_players w) w = none := dlookup_derase_self w hnd
  refine ⟨by simp [remove_player, h], by simp [remove_player, h, dlookup_dinsert],
    by simp [remove_player, h, add_player, hno], ?_, ?_, by simp [remove_player, h],
    ?_, by simp [remove_player, h], ?_, ?_⟩
  · simp [remove_player, h, add_player, hno, dlookup_dinsert]
  · simp [remove_player, h, add_player, hno, dlookup_dinsert]
  · simp [remove_player, h, add_player, hno, dlookup_dinsert]
  · simp [remove_player, h, add_player, hno, dlookup_dinsert]
  · simp [remove_player, h, add_player, hno]

/-- Witness for C7 at a two-player session, removing and re-adding "A". -/
theorem remove_then_add_round_trip_witness :
    (add_player (remove_player (create 500 ["A", "B"] "2024-05-05") "A").1 "A").2.1 = true :=
  (remove_then_add_round_trip (create 500 ["A", "B"] "2024-05-05") "A" 500
    (by decide) (by decide)).2.2.1

/-! ### Invariant preservation -/

theorem sessionInv_create (b : Int) (ps : List String) (dt : String) :
    SessionInv (create b ps dt) := by
  refine ⟨?_, ?_, ?_⟩
  · rw [create_active]
    exact nodup_dkeys_foldl_dinsert b ps (by simp [dkeys])
  · intro p hp
    have := (mem_dkeys _ _).1 hp
    rw [dlookup_create_active] at this
    by_cases hm : p ∈ ps
    · simp [dlookup_create_join, hm]
    · simp [hm] at this
  · intro p hp
    have := (mem_dkeys _ _).1 hp
    rw [dlookup_create_active] at this
    by_cases hm : p ∈ ps
    · simp [dlookup_create_leave, hm]
    · simp [hm] at this

theorem sessionInv_add (s : GameSession) (p : String) (h : SessionInv s) :
    SessionInv (add_player s p).1 := by
  obtain ⟨hn, hj, hl⟩ := h
  cases hx : dlookup s.active_players p with
  | some v => simpa [add_player, hx] using ⟨hn, hj, hl⟩
  | none =>
    simp only [add_player, hx, Option.isSome_none, Bool.false_eq_true, if_false]
    refine ⟨nodup_dkeys_dinsert p s.buy_in hn, ?_, ?_⟩
    · intro q hq
      rcases (mem_dkeys_dinsert _ _ _ _).1 hq with hm | hm
      · by_cases hqp : p = q
        · simp [dlookup_dinsert, hqp]
        · rw [dlookup_dinsert, if_neg hqp]
          exact hj q hm
      · simp [dlookup_dinsert, hm]
    · intro q hq
      rcases (mem_dkeys_dinsert _ _ _ _).1 hq with hm | hm
      · by_cases hqp : p = q
        · simp [dlookup_dinsert, hqp]
        · rw [dlookup_dinsert, if_neg hqp]
          exact hl q hm
      · simp [dlookup_dinsert, hm]

theorem sessionInv_remove (s : GameSession) (p : String) (h : SessionInv s) :
    SessionInv (remove_player s p).1 := by
  obtain ⟨hn, hj, hl⟩ := h
  cases hx : dlookup s.active_players p with
  | none => simpa [remove_player, hx] using ⟨hn, hj, hl⟩
  | some v =>
    simp only [remove_player]
    rw [hx]
    refine ⟨nodup_dkeys_derase p hn, ?_, ?_⟩
    · intro q hq
      exact hj q (mem_dkeys_of_mem_derase hq)
    · intro q hq
      have hqp : ¬ (p = q) := by
        intro hpq
        subst hpq
        have := (mem_dkeys _ _).1 hq
        rw [dlookup_derase_self p hn] at this
        simp at this
      rw [dlookup_dinsert, if_neg hqp]
      exact hl q (mem_dkeys_of_mem_derase hq)

theorem sessionInv_win (s : GameSession) (p : String) (h : SessionInv s) :
    SessionInv (set_winner s p).1 := by
  obtain ⟨hn, hj, hl⟩ := h
  cases hx : dlookup s.active_players p with
  | none => simpa [set_winner, hx] using ⟨hn, hj, hl⟩
  | some v =>
    simp only [set_winner, hx, Option.isNone_some, Bool.false_eq_true, if_false]
    refine ⟨by simpa [dkeys_map_const] using hn, ?_, ?_⟩
    · intro q hq
      rw [dkeys_map_const] at hq
      exact hj q hq
    · intro q hq
      rw [dkeys_map_const] at hq
      exact hl q hq

theorem sessionInv_runOp (s : GameSession) (op : Op) (h : SessionInv s) :
    SessionInv (runOp s op) := by
  cases op with
  | add p => exact sessionInv_add s p h
  | remove p => exact sessionInv_remove s p h
  | win p => exact sessionInv_win s p h
  | pnl q => exact h

theorem runOp_game_count_mono (s : GameSession) (op : Op) :
    s.game_count ≤ (runOp s op).game_count := by
  cases op with
  | add p =>
    cases hx : dlookup s.active_players p with
    | none => simp [runOp, add_player, hx]
    | some v => simp [runOp, add_player, hx]
  | remove p =>
    cases hx : dlookup s.active_players p with
    | none => simp [runOp, remove_player, hx]
    | some v => simp [runOp, remove_player, hx]
  | win p =>
    cases hx : dlookup s.active_players p with
    | none => simp [runOp, set_winner, hx]
    | some v => simp [runOp, set_winner, hx]
  | pnl q => exact le_refl _

theorem foldl_runOp_game_count_mono (s : GameSession) (ops : List Op) :
    s.game_count ≤ (ops.foldl runOp s).game_count := by
  induction ops generalizing s with
  | nil => exact le_refl _
  | cons op ops ih => exact le_trans (runOp_game_count_mono s op) (ih (runOp s op))

/-- C6: `create` establishes the data-model invariants; every command
(adds, removals, wins and the read-only query) preserves them along any
command sequence; `game_count` never decreases along any command sequence;
and a successful removal stamps `player_leave_game` with the game index
current at the moment of removal. -/
theorem ledger_invariants (s : GameSession) (ops : List Op) (h : SessionInv s) :
    (∀ b ps dt, SessionInv (create b ps dt)) ∧
    SessionInv (ops.foldl runOp s) ∧
    s.game_count ≤ (ops.foldl runOp s).game_count ∧
    (∀ p, (remove_player s p).2.1 = true →
      dlookup (remove_player s p).1.player_leave_game p = some (some s.game_count)) := by
  refine ⟨sessionInv_create, ?_, foldl_runOp_game_count_mono s ops, ?_⟩
  · induction ops generalizing s with
    | nil => exact h
    | cons op ops ih => exact ih (runOp s op) (sessionInv_runOp s op h)
  · intro p hp
    cases hx : dlookup s.active_players p with
    | none => simp [remove_player, hx] at hp
    | some v => simp [remove_player, hx, dlookup_dinsert]

/-- Witness for C6: a concrete two-player session run through a win and a
removal keeps its game count from decreasing. -/
theorem ledger_invariants_witness :
    (create 500 ["A", "B"] "2024-06-06").game_count ≤
      (([Op.win "A", Op.remove "B"]).foldl runOp (create 500 ["A", "B"] "2024-06-06")).game_count :=
  (ledger_invariants (create 500 ["A", "B"] "2024-06-06") [Op.win "A", Op.remove "B"]
    (by unfold SessionInv; decide)).2.2.1

/-! ### Stacks always equal the buy-in -/

theorem sum_map_snd_of_const (d : List (String × Int)) (c : Int)
    (h : ∀ kv ∈ d, kv.2 = c) :
    (d.map (fun kv => kv.2)).sum = (d.length : Int) * c := by
  induction d with
  | nil => simp
  | cons kv rest ih =>
    have hkv := h kv (List.mem_cons_self kv rest)
    have hrest := ih (fun x hx => h x (List.mem_cons_of_mem kv hx))
    simp [hkv, hrest]
    ring

theorem stackInv_runOp (s : GameSession) (op : Op) (h : StackInv s) :
    StackInv (runOp s op) := by
  cases op with
  | add p =>
    cases hx : dlookup s.active_players p with
    | some v => simpa [runOp, add_player, hx] using h
    | none =>
      simp only [runOp, add_player, hx, Option.isSome_none, Bool.false_eq_true, if_false]
      intro kv hkv
      rcases mem_of_mem_dinsert hkv with hm | hm
      · exact h kv hm
      · simp [hm]
  | remove p =>
    cases hx : dlookup s.active_players p with
    | none => simpa [runOp, remove_player, hx] using h
    | some v =>
      simp only [runOp, remove_player]
      rw [hx]
      intro kv hkv
      exact h kv ((derase_sublist s.active_players p).mem hkv)
  | win p =>
    cases hx : dlookup s.active_players p with
    | none => simpa [runOp, set_winner, hx] using h
    | some v =>
      simp only [runOp, set_winner, hx, Option.isNone_some, Bool.false_eq_true, if_false]
      intro kv hkv
      obtain ⟨kv', hkv', rfl⟩ := List.mem_map.1 hkv
      rfl
  | pnl q => exact h

theorem runOp_buy_in (s : GameSession) (op : Op) : (runOp s op).buy_in = s.buy_in := by
  cases op with
  | add p =>
    cases hx : dlookup s.active_players p with
    | none => simp [runOp, add_player, hx]
    | some v => simp [runOp, add_player, hx]
  | remove p =>
    cases hx : dlookup s.active_players p with
    | none => simp [runOp, remove_player, hx]
    | some v => simp [runOp, remove_player, hx]
  | win p =>
    cases hx : dlookup s.active_players p with
    | none => simp [runOp, set_winner, hx]
    | some v => simp [runOp, set_winner, hx]
  | pnl q => rfl

theorem stackInv_create (b : Int) (ps : List String) (dt : String) :
    StackInv (create b ps dt) := by
  intro kv hkv
  rw [create_active] at hkv
  rw [create_buy_in]
  rcases mem_of_mem_foldl_dinsert ps hkv with hm | hm
  · simp at hm
  · exact hm

/-- C10: `create` puts every active stack at the buy-in, every command
keeps it there (and never changes the buy-in), so after any command the sum
of active stacks is `buy_in` times the number of active players — the prize
pool the messages report. -/
theorem stacks_always_buy_in (s : GameSession) (op : Op) (h : StackInv s) :
    StackInv (runOp s op) ∧
    (runOp s op).buy_in = s.buy_in ∧
    (∀ b ps dt, StackInv (create b ps dt)) ∧
    ((runOp s op).active_players.map (fun kv => kv.2)).sum =
      ((runOp s op).active_players.length : Int) * (runOp s op).buy_in := by
  have hpres := stackInv_runOp s op h
  exact ⟨hpres, runOp_buy_in s op, stackInv_create,
    sum_map_snd_of_const _ _ (fun kv hkv => hpres kv hkv)⟩

/-- Witness for C10: a win on a concrete session keeps all stacks at the
buy-in. -/
theorem stacks_always_buy_in_witness :
    (runOp (create 500 ["A", "B"] "2024-07-07") (Op.win "A")).buy_in =
      (create 500 ["A", "B"] "2024-07-07").buy_in :=
  (stacks_always_buy_in (create 500 ["A", "B"] "2024-07-07") (Op.win "A")
    (by unfold StackInv; decide)).2.1

/-! ### Final results -/

/-- C9: `get_final_results` yields exactly one record per player in the
union of the initial roster and the current active keys; each record
carries the session buy-in, a hard-coded 0 rebuys, the player's current
stack (0 when inactive) and a net P/L of final stack minus buy-in.  The
function reads the session and builds a fresh list, mutating nothing. -/
theorem final_results_spec (s : GameSession) (p : String) :
    (((get_final_results s).filter (fun r => r.player_name == p)).length =
      if p ∈ s.initial_players ∨ p ∈ dkeys s.active_players then 1 else 0) ∧
    (∀ r ∈ get_final_results s, r.buy_in = s.buy_in ∧ r.rebuys = 0 ∧
      r.final_stack = (dlookup s.active_players r.player_name).getD 0 ∧
      r.net_profit_loss = r.final_stack - s.buy_in) := by
  constructor
  · rw [get_final_results, List.filter_map]
    have hf : ((fun r : FinalResult => r.player_name == p) ∘ (fun q =>
        ({ player_name := q, buy_in := s.buy_in, rebuys := 0,
           final_stack := (dlookup s.active_players q).getD 0,
           net_profit_loss := (dlookup s.active_players q).getD 0 - s.buy_in }
          : FinalResult))) = (fun q => q == p) := by
      funext q
      simp [Function.comp]
    rw [hf, List.length_map, ← List.countP_eq_length_filter]
    rw [show (List.countP (fun q => q == p)
        ((s.initial_players ++ dkeys s.active_players).dedup)) =
      ((s.initial_players ++ dkeys s.active_players).dedup).count p from rfl]
    rw [List.count_dedup]
    simp [List.mem_append]
  · intro r hr
    rw [get_final_results] at hr
    obtain ⟨q, hq, rfl⟩ := List.mem_map.1 hr
    exact ⟨rfl, rfl, rfl, rfl⟩

/-- Witness for C9: one record for the removed player "B" of `sessRem`. -/
theorem final_results_spec_witness :
    ((get_final_results sessRem).filter (fun r => r.player_name == "B")).length =
      if "B" ∈ sessRem.initial_players ∨ "B" ∈ dkeys sessRem.active_players then 1 else 0 :=
  (final_results_spec sessRem "B").1

/-! ### `get_player_pnl` failure behaviour -/

theorem pnlLines_ne_nil (s : GameSession) (p : String) : pnlLines s p ≠ [] := by
  simp [pnlLines]

theorem keepPlayer_of_ne_empty {nm : String} (hne : nm ≠ "") :
    keepPlayer (some nm) = fun p => p == nm := by
  have h0 : (nm == "") = false := beq_eq_false_iff_ne.2 hne
  funext p
  simp [keepPlayer, h0]

theorem pnl_results_empty_iff (s : GameSession) (nm : String) (hne : nm ≠ "") :
    ((((dkeys s.player_join_game).dedup).filter (keepPlayer (some nm))).flatMap
      (pnlLines s) = []) ↔ dlookup s.player_join_game nm = none := by
  rw [keepPlayer_of_ne_empty hne]
  constructor
  · intro h
    by_contra hx
    have hsome : (dlookup s.player_join_game nm).isSome = true := by
      cases hcase : dlookup s.player_join_game nm with
      | none => exact absurd hcase hx
      | some v => rfl
    have hmem : nm ∈ (dkeys s.player_join_game).dedup :=
      List.mem_dedup.2 ((mem_dkeys _ _).2 hsome)
    have hmf : nm ∈ ((dkeys s.player_join_game).dedup).filter (fun p => p == nm) :=
      List.mem_filter.2 ⟨hmem, by simp⟩
    have hnil : pnlLines s nm = [] := by
      rcases hli : pnlLines s nm with _ | ⟨a, l⟩
      · rfl
      · have : a ∈ (((dkeys s.player_join_game).dedup).filter
            (fun p => p == nm)).flatMap (pnlLines s) :=
          List.mem_flatMap.2 ⟨nm, hmf, by simp [hli]⟩
        rw [h] at this
        simp at this
    exact pnlLines_ne_nil s nm hnil
  · intro h
    have hfilter : ((dkeys s.player_join_game).dedup).filter (fun p => p == nm) = [] := by
      refine List.filter_eq_nil_iff.2 ?_
      intro p hp hbeq
      have hpn : p = nm := by simpa using hbeq
      subst hpn
      have := (mem_dkeys _ _).1 (List.mem_dedup.1 hp)
      rw [h] at this
      simp at this
    rw [hfilter]
    rfl

/-- C3 (amended): for a non-empty name, `get_player_pnl` fails exactly when
the name never appears in `player_join_game`; in particular any previously
joined name — still active or already removed — yields success, not the
"player not active" failure the original claim demanded. -/
theorem pnl_failure_iff_never_joined (s : GameSession) (nm : String) (hne : nm ≠ "") :
    ((get_player_pnl s (some nm)).1 = false ↔ dlookup s.player_join_game nm = none) ∧
    ((dlookup s.player_join_game nm).isSome = true → (get_player_pnl s (some nm)).1 = true) := by
  have hiff : (get_player_pnl s (some nm)).1 = false ↔
      dlookup s.player_join_game nm = none := by
    simp only [get_player_pnl]
    by_cases he : ((((dkeys s.player_join_game).dedup).filter (keepPlayer (some nm))).flatMap
        (pnlLines s)) = []
    · simp [he, (pnl_results_empty_iff s nm hne).1 he]
    · have hnn : ¬ dlookup s.player_join_game nm = none := fun hn =>
        he ((pnl_results_empty_iff s nm hne).2 hn)
      simp [List.isEmpty_iff, he, hnn]
  refine ⟨hiff, ?_⟩
  · intro hsome
    cases hb : (get_player_pnl s (some nm)).1 with
    | false =>
      have := hiff.1 hb
      rw [this] at hsome
      simp at hsome
    | true => rfl

/-- C3 counterexample: in `sessRem` the name "B" is not a key of
`active_players` (it was removed), yet `get_player_pnl "B"` succeeds
instead of failing as the claim states. -/
theorem pnl_inactive_succeeds :
    dlookup sessRem.active_players "B" = none ∧
    (get_player_pnl sessRem (some "B")).1 = true := by
  decide

/-- Witness for the amended C3 at a concrete session and name. -/
theorem pnl_failure_iff_never_joined_witness :
    ((get_player_pnl (create 500 ["A"] "2024-08-08") (some "A")).1 = false ↔
      dlookup (create 500 ["A"] "2024-08-08").player_join_game "A" = none) :=
  (pnl_failure_iff_never_joined (create 500 ["A"] "2024-08-08") "A" (by decide)).1

/-- C8 (amended): for a NON-EMPTY name that never appears in
`player_join_game`, `get_player_pnl` fails with the "player not found"
message (being a pure query, it touches no session state).  The empty name
is the one exception: Python truthiness treats it as "no name given". -/
theorem pnl_never_joined_fails (s : GameSession) (nm : String) (hne : nm ≠ "")
    (h : dlookup s.player_join_game nm = none) :
    get_player_pnl s (some nm) = (false, "❌ Player " ++ nm ++ " not found") := by
  have he := (pnl_results_empty_iff s nm hne).2 h
  simp [get_player_pnl, he]

/-- C8 counterexample: the empty string never appears in
`player_join_game`, yet `get_player_pnl ""` succeeds (the truthiness test
`if player and ...` treats `""` like "no name given"), contradicting the
claim as stated for that name. -/
theorem pnl_empty_name_succeeds :
    dlookup (create 500 ["A"] "2024-09-09").player_join_game "" = none ∧
    (get_player_pnl (create 500 ["A"] "2024-09-09") (some "")).1 = true := by
  decide

/-- Witness for the amended C8: an unknown name on a concrete session. -/
theorem pnl_never_joined_fails_witness :
    get_player_pnl (create 500 ["A"] "2024-10-10") (some "B") =
      (false, "❌ Player B not found") :=
  pnl_never_joined_fails (create 500 ["A"] "2024-10-10") "B" (by decide) (by decide)

end PokerBot
